import Mathlib

/-
  Verification development for the InstallShield Cabinet reader
  (common/compression/installshield_cab.cpp).

  The C++ code is shallowly embedded: byte streams are lists of bytes
  (`List Nat`, each element a byte value), streams reads past the end
  yield 0 (mirroring the zero default of a failed ScummVM stream read),
  and 32-bit arithmetic wraps via `u32` where the source computes in
  `uint32`.  The case-insensitive `HashMap` keyed by `Path` is embedded
  as an association list keyed by the lower-cased byte string of the
  path.  The headerless-zlib inflater (common/compression/deflate.h) is
  an external collaborator and is passed in as a function parameter
  `inflater : Nat → List Nat → Option (List Nat)` mapping an output
  capacity and a source buffer to the produced bytes (or `none` on
  inflate failure).
-/

set_option autoImplicit false

namespace ISCab

/-! ## Byte streams and primitive reads -/

/-- Byte of a stream at position `i`; reads past the end give 0. -/
def byteAt (s : List Nat) (i : Nat) : Nat := s.getD i 0

/-- Little-endian 16-bit read (READ_LE_UINT16). -/
def readU16LE (s : List Nat) (p : Nat) : Nat :=
  byteAt s p + 256 * byteAt s (p + 1)

/-- Little-endian 32-bit read (readUint32LE). -/
def readU32LE (s : List Nat) (p : Nat) : Nat :=
  byteAt s p + 256 * byteAt s (p + 1) + 65536 * byteAt s (p + 2) +
    16777216 * byteAt s (p + 3)

/-- Big-endian 32-bit read (READ_BE_UINT32). -/
def readBE32 (s : List Nat) (p : Nat) : Nat :=
  16777216 * byteAt s p + 65536 * byteAt s (p + 1) + 256 * byteAt s (p + 2) +
    byteAt s (p + 3)

/-- Truncation to 32 bits, for sums the source computes in `uint32`. -/
def u32 (n : Nat) : Nat := n % 4294967296

/-- Bytes of a NUL-terminated string starting a list. -/
def cString : List Nat → List Nat
  | [] => []
  | b :: rest => if b = 0 then [] else b :: cString rest

/-- readString: the NUL-terminated byte string at position `p`. -/
def readString (s : List Nat) (p : Nat) : List Nat := cString (s.drop p)

/-- ASCII lower-casing of one byte; models Path::IgnoreCase comparison. -/
def normByte (b : Nat) : Nat := if 65 ≤ b ∧ b ≤ 90 then b + 32 else b

/-- stream->read(buf, n) after seek(p): `n` bytes starting at `p`. -/
def readBytes (s : List Nat) (p n : Nat) : List Nat :=
  (List.range n).map (fun i => byteAt s (p + i))

/-! ## Data model -/

/-- FileEntry flag bits (enum Flags). -/
def kSplit : Nat := 1

def kObfuscated : Nat := 2

def kCompressed : Nat := 4

def kInvalid : Nat := 8

/-- struct FileEntry. -/
structure FileEntry where
  uncompressedSize : Nat
  compressedSize : Nat
  offset : Nat
  flags : Nat
  volume : Nat
  deriving DecidableEq

/-- struct VolumeHeader. -/
structure VolumeHeader where
  version : Nat
  cabDescriptorOffset : Nat
  dataOffset : Nat
  firstFileIndex : Nat
  lastFileIndex : Nat
  firstFileOffset : Nat
  firstFileSizeUncompressed : Nat
  firstFileSizeCompressed : Nat
  lastFileOffset : Nat
  lastFileSizeUncompressed : Nat
  lastFileSizeCompressed : Nat
  deriving DecidableEq

/-- All-zero VolumeHeader, the model of a default-constructed one. -/
def zeroHeader : VolumeHeader :=
  { version := 0, cabDescriptorOffset := 0, dataOffset := 0,
    firstFileIndex := 0, lastFileIndex := 0, firstFileOffset := 0,
    firstFileSizeUncompressed := 0, firstFileSizeCompressed := 0,
    lastFileOffset := 0, lastFileSizeUncompressed := 0,
    lastFileSizeCompressed := 0 }

/-- Decode failure kinds of readVolumeHeader. -/
inductive DecodeErr where
  | badSignature
  | unsupportedVersion
  deriving DecidableEq

/-- Failure kinds of open(). -/
inductive OpenErr where
  | noCarrier
  | decode (e : DecodeErr)
  | missingVolume
  deriving DecidableEq

/-! ## VolumeHeader decoding (readVolumeHeader) -/

/--
readVolumeHeader: decodes the header at offset 0 of a volume stream.
Mirrors the C++ out-parameter convention: the first component is the
header as filled in so far (fields not yet written stay at their
default), the second is the failure kind, `none` meaning success.
-/
def readVolumeHeader (s : List Nat) : VolumeHeader × Option DecodeErr :=
  let signature := readU32LE s 0
  if signature ≠ 0x28635349 then (zeroHeader, some .badSignature)
  else
    let magicBytes := readU32LE s 4
    let shift := magicBytes >>> 24
    let v0 := if shift = 1 then (magicBytes >>> 12) &&& 0xf
              else (magicBytes &&& 0xffff) / 100
    let version := if v0 = 0 then 5 else v0
    if version < 5 ∨ 13 < version then
      ({ zeroHeader with version := version }, some .unsupportedVersion)
    else
      let cdo := readU32LE s 12
      if version = 5 then
        ({ version := version, cabDescriptorOffset := cdo,
           dataOffset := readU32LE s 20,
           firstFileIndex := readU32LE s 28,
           lastFileIndex := readU32LE s 32,
           firstFileOffset := readU32LE s 36,
           firstFileSizeUncompressed := readU32LE s 40,
           firstFileSizeCompressed := readU32LE s 44,
           lastFileOffset := readU32LE s 48,
           lastFileSizeUncompressed := readU32LE s 52,
           lastFileSizeCompressed := readU32LE s 56 }, none)
      else
        ({ version := version, cabDescriptorOffset := cdo,
           dataOffset := readU32LE s 20,
           firstFileIndex := readU32LE s 28,
           lastFileIndex := readU32LE s 32,
           firstFileOffset := readU32LE s 36,
           firstFileSizeUncompressed := readU32LE s 44,
           firstFileSizeCompressed := readU32LE s 52,
           lastFileOffset := readU32LE s 60,
           lastFileSizeUncompressed := readU32LE s 68,
           lastFileSizeCompressed := readU32LE s 76 }, none)

/-- The header left behind by the enumeration loop of open(), which
discards readVolumeHeader's success flag (installshield_cab.cpp:178). -/
def enumVolumeHeader (s : List Nat) : VolumeHeader := (readVolumeHeader s).1

/-! ## Catalog (the case-insensitive HashMap) -/

/-- The catalog: an association list from lower-cased path bytes to
FileEntry.  The first binding for a key is the visible one. -/
abbrev CatMap : Type := List (List Nat × FileEntry)

/-- HashMap lookup (contains / operator[]). -/
def catLookup : CatMap → List Nat → Option FileEntry
  | [], _ => none
  | (k, e) :: rest, key => if k = key then some e else catLookup rest key

/-- Replacement of the binding of an existing key. -/
def catUpdate : CatMap → List Nat → FileEntry → CatMap
  | [], _, _ => []
  | (k0, e0) :: rest, k, e =>
      if k0 = k then (k0, e) :: rest else (k0, e0) :: catUpdate rest k e

/-- The insertion performed by open(): keep the entry with the lowest
volume on duplicate keys (installshield_cab.cpp:259-260, 320-321). -/
def catInsert (m : CatMap) (k : List Nat) (e : FileEntry) : CatMap :=
  match catLookup m k with
  | none => m ++ [(k, e)]
  | some old => if e.volume < old.volume then catUpdate m k e else m

/-- A sequence of catalog insertions starting from a map. -/
def buildMapFrom (m : CatMap) : List (List Nat × FileEntry) → CatMap
  | [] => m
  | (k, e) :: ps => buildMapFrom (catInsert m k e) ps

/-- A sequence of catalog insertions starting from the empty map. -/
def buildMap (ps : List (List Nat × FileEntry)) : CatMap := buildMapFrom [] ps

/-! ## File-table records -/

/-- The version ≥ 6 file-table record at stream position `base`
(installshield_cab.cpp:234-247): name offset paired with the entry. -/
def readV6Entry (file : List Nat) (base : Nat) : Nat × FileEntry :=
  (readU32LE file (base + 58),
   { flags := readU16LE file base,
     uncompressedSize := readU32LE file (base + 2),
     compressedSize := readU32LE file (base + 10),
     offset := readU32LE file (base + 18),
     volume := readU16LE file (base + 85) })

/-- The version 5 file-table record at stream position `base`
(installshield_cab.cpp:272-282): name offset paired with the entry,
whose volume starts at 0. -/
def readV5Entry (file : List Nat) (base : Nat) : Nat × FileEntry :=
  (readU32LE file base,
   { flags := readU16LE file (base + 8),
     uncompressedSize := readU32LE file (base + 10),
     compressedSize := readU32LE file (base + 14),
     offset := readU32LE file (base + 38),
     volume := 0 })

/-- The volume-resolution loop of the version 5 catalog build
(installshield_cab.cpp:288-304): scan the volume headers from index `i`
for the first whose [firstFileIndex, lastFileIndex] range contains
`fidx`; record its index as the entry volume and set the Split flag
when `fidx` is its lastFileIndex, the entry compressed size differs
from the CARRIER header's lastFileSizeCompressed and the latter is
non-zero.  `carrier` is `headerHeader`, the header of the carrier file,
which the source consults for the split comparison. -/
def resolveEntry (carrier : VolumeHeader) : List VolumeHeader → Nat → Nat →
    FileEntry → FileEntry
  | [], _, _, e => e
  | h :: rest, i, fidx, e =>
      if h.firstFileIndex ≤ fidx ∧ fidx ≤ h.lastFileIndex then
        { e with volume := i,
                 flags := if fidx = h.lastFileIndex ∧
                     e.compressedSize ≠ carrier.lastFileSizeCompressed ∧
                     carrier.lastFileSizeCompressed ≠ 0
                   then e.flags ||| kSplit else e.flags }
      else resolveEntry carrier rest (i + 1) fidx e

/-- First volume header (1-based, scanning from index `i`) whose file
index range contains `fidx`. -/
def findOwner : List VolumeHeader → Nat → Nat → Option (Nat × VolumeHeader)
  | [], _, _ => none
  | h :: rest, i, fidx =>
      if h.firstFileIndex ≤ fidx ∧ fidx ≤ h.lastFileIndex then some (i, h)
      else findOwner rest (i + 1) fidx

/-! ## Catalog build loops of open() -/

/-- One iteration of the version ≥ 6 file loop
(installshield_cab.cpp:231-261). -/
def v6Step (file : List Nat) (cdo fto fto2 : Nat) (m : CatMap) (j : Nat) :
    CatMap :=
  let base := u32 (cdo + fto + fto2 + j * 0x57)
  let r := readV6Entry file base
  if r.1 = 0 ∨ r.2.offset = 0 ∨ r.2.flags &&& kInvalid ≠ 0 then m
  else catInsert m ((readString file (u32 (cdo + fto + r.1))).map normByte) r.2

/-- The version ≥ 6 file loop over the record indices `js`. -/
def buildV6 (file : List Nat) (cdo fto fto2 : Nat) :
    List Nat → CatMap → CatMap
  | [], m => m
  | j :: js, m => buildV6 file cdo fto fto2 js (v6Step file cdo fto fto2 m j)

/-- One iteration of the version 5 file loop
(installshield_cab.cpp:270-322) at file-table offset `tblOff`,
carrying (fileIndex, map); `none` is the MissingVolume failure. -/
def v5Step (carrier : VolumeHeader) (hdrs : List VolumeHeader)
    (file : List Nat) (cdo fto : Nat) (st : Nat × CatMap) (tblOff : Nat) :
    Option (Nat × CatMap) :=
  let base := u32 (cdo + fto + tblOff)
  let r := readV5Entry file base
  if r.1 = 0 ∨ r.2.offset = 0 ∨ r.2.flags &&& kInvalid ≠ 0 then some st
  else
    let e := resolveEntry carrier hdrs 1 st.1 r.2
    let key := (readString file (u32 (cdo + fto + r.1))).map normByte
    if e.volume = 0 then none
    else some (st.1 + 1, catInsert st.2 key e)

/-- The version 5 file loop over file-table offsets `ts`. -/
def buildV5 (carrier : VolumeHeader) (hdrs : List VolumeHeader)
    (file : List Nat) (cdo fto : Nat) :
    List Nat → Nat × CatMap → Option (Nat × CatMap)
  | [], st => some st
  | t :: ts, st =>
      match v5Step carrier hdrs file cdo fto st t with
      | none => none
      | some st' => buildV5 carrier hdrs file cdo fto ts st'

/-! ## Reader state, open() and close() -/

/-- The mutable fields of InstallShieldCabinet.  `archive` is the
retained backend handle (`_archive`), abstracted to an optional id. -/
structure ReaderState where
  baseName : List Nat
  map : CatMap
  volumeHeaders : List VolumeHeader
  version : Nat
  archive : Option Nat
  deriving DecidableEq

/-- The freshly-constructed reader (installshield_cab.cpp:138-139). -/
def initReader : ReaderState :=
  { baseName := [], map := [], volumeHeaders := [], version := 0,
    archive := none }

/-- close() (installshield_cab.cpp:328-333): clears base name, map,
volume headers and version; `_archive` is not touched. -/
def closeFn (s : ReaderState) : ReaderState :=
  { s with baseName := [], map := [], volumeHeaders := [], version := 0 }

/-- The reader state after a failed open(), which calls close() on the
partially-populated state. -/
def closedReader (arch : Option Nat) : ReaderState :=
  { baseName := [], map := [], volumeHeaders := [], version := 0,
    archive := arch }

/-- Carrier selection of open(): the .hdr stream when present, else
volume 1 (installshield_cab.cpp:181-196). -/
def carrierOf (vols : List (List Nat)) (hdr : Option (List Nat)) :
    Option (List Nat) :=
  match hdr with
  | some c => some c
  | none => vols.head?

/--
open() (installshield_cab.cpp:141-326).  `vols` is the consecutive run
of volume streams `<base>1.cab`, `<base>2.cab`, ... that the volume
source can open (enumeration stops at the first missing volume), `hdr`
the optional `<base>1.hdr` stream, `bn` the stored base name and `arch`
the backend handle.  The result pairs the reader state left behind with
the failure kind (`none` on success).  The enumeration loop stores
every volume's header and DISCARDS readVolumeHeader's success flag;
fields a failed decode did not reach are modelled as 0 (the C++ leaves
them default-initialized).  The file-table size words are read but only
feed a warning, so they are not modelled.
-/
def openCab (vols : List (List Nat)) (hdr : Option (List Nat))
    (bn : List Nat) (arch : Option Nat) : ReaderState × Option OpenErr :=
  let hdrs := vols.map enumVolumeHeader
  match carrierOf vols hdr with
  | none => (closedReader arch, some .noCarrier)
  | some c =>
    match readVolumeHeader c with
    | (_, some e) => (closedReader arch, some (.decode e))
    | (hh, none) =>
      let version := hh.version
      let cdo := hh.cabDescriptorOffset
      let fto := readU32LE c (cdo + 12)
      let directoryCount := readU32LE c (cdo + 28)
      let fileCount := readU32LE c (cdo + 40)
      if 6 ≤ version then
        let fto2 := readU32LE c (cdo + 44)
        let m := buildV6 c cdo fto fto2 (List.range fileCount) []
        ({ baseName := bn, map := m, volumeHeaders := hdrs,
           version := version, archive := arch }, none)
      else
        let offs := (List.range (directoryCount + fileCount)).map
          (fun j => readU32LE c (u32 (cdo + fto) + 4 * j))
        match buildV5 hh hdrs c cdo fto (offs.drop directoryCount) (0, []) with
        | none => (closedReader arch, some .missingVolume)
        | some p =>
            ({ baseName := bn, map := p.2, volumeHeaders := hdrs,
               version := version, archive := arch }, none)

/-! ## The framed inflater (inflateZlibInstallShield) -/

/-- An abstract headerless-zlib inflater: capacity and source buffer to
produced bytes, `none` on failure (models inflateZlibHeaderless). -/
abbrev Inflater : Type := Nat → List Nat → Option (List Nat)

/--
The chunk loop of inflateZlibInstallShield
(installshield_cab.cpp:69-83), operating on the not-yet-consumed
suffix `rem` of the source.  Each iteration reads a 16-bit LE chunk
size, skips it, inflates the chunk with the remaining output capacity
and drops `2 + chunkSize` source bytes, so the suffix shrinks by at
least two bytes per iteration; `fuel` (one more than the suffix length
at the top-level call) therefore never runs out. -/
def inflateChunks (inflater : Inflater) :
    Nat → Nat → List Nat → Option (List Nat)
  | 0, _, _ => none
  | fuel + 1, dstLen, rem =>
    if dstLen = 0 ∨ rem = [] then some []
    else
      let chunkSize := readU16LE rem 0
      match inflater dstLen ((rem.drop 2).take chunkSize) with
      | none => none
      | some out =>
        match inflateChunks inflater fuel (dstLen - out.length)
            (rem.drop (2 + chunkSize)) with
        | none => none
        | some restOut => some (out ++ restOut)

/--
inflateZlibInstallShield (installshield_cab.cpp:59-84).  `dstNull` and
`srcNull` model null buffer pointers; the source length is the length
of `src`.  Returns the produced output bytes, `none` on failure. -/
def inflateZlibInstallShield (inflater : Inflater) (dstNull : Bool)
    (dstLen : Nat) (srcNull : Bool) (src : List Nat) : Option (List Nat) :=
  if dstNull = true ∨ dstLen = 0 ∨ srcNull = true ∨ src.length = 0 then none
  else if 4 ≤ src.length ∧ readBE32 src (src.length - 4) = 0xFFFF then
    inflater dstLen src
  else inflateChunks inflater (src.length + 1) dstLen src

/-! ## Split-file assembly (createReadStreamForMember, split branch) -/

/--
The continuation loop of the split assembly
(installshield_cab.cpp:389-406).  `pairs` lists, in order, the header
and the openable stream (or `none`) of each volume after the starting
one; `need` is the entry's compressedSize and `read` the running byte
count.  Returns the bytes appended by the loop paired with the final
count, `none` when a required volume cannot be opened. -/
def assembleTail :
    List (VolumeHeader × Option (List Nat)) → Nat → Nat → List Nat →
    Option (List Nat × Nat)
  | pairs, need, read, acc =>
    if read < need then
      match pairs with
      | [] => none
      | (_, none) :: _ => none
      | (h, some s) :: rest =>
          assembleTail rest need (read + h.firstFileSizeCompressed)
            (acc ++ readBytes s h.firstFileOffset h.firstFileSizeCompressed)
    else some (acc, read)

/--
The split branch of createReadStreamForMember
(installshield_cab.cpp:377-407): read the trailing segment
(lastFileSizeCompressed bytes at the entry offset) from the already
open starting volume `startStream`, then keep appending head segments
from the following volumes while fewer than compressedSize bytes have
been read.  `volsAfter` aligns with `hdrs`: element `i` is the stream
of volume `i + 1`. -/
def assembleSplit (hdrs : List VolumeHeader)
    (volsAfter : List (Option (List Nat))) (startStream : List Nat)
    (e : FileEntry) : Option (List Nat × Nat) :=
  let h0 := hdrs.getD (e.volume - 1) zeroHeader
  assembleTail ((hdrs.zip volsAfter).drop e.volume) e.compressedSize
    h0.lastFileSizeCompressed
    (readBytes startStream e.offset h0.lastFileSizeCompressed)

/-! ## createReadStreamForMember -/

/-- A stream returned to the caller: either a sub-range view of a
volume stream (SeekableSubReadStream) or an owned in-memory buffer
with its advertised length (MemoryReadStream). -/
inductive StreamOut where
  | sub (volStream : List Nat) (b e : Nat)
  | mem (len : Nat) (bytes : List Nat)
  deriving DecidableEq

/-- The length of a returned stream. -/
def streamLen : StreamOut → Nat
  | .sub _ b e => e - b
  | .mem len _ => len

/-- The tail of the compressed path (installshield_cab.cpp:420-440):
allocate the output, inflate unless compressedSize is 0, and wrap the
result.  Bytes the inflater did not produce stay at the malloc fill,
modelled as 0. -/
def finishCompressed (inflater : Inflater) (e : FileEntry)
    (src : List Nat) : Option StreamOut :=
  if e.compressedSize = 0 then
    some (.mem e.uncompressedSize (List.replicate e.uncompressedSize 0))
  else
    match inflateZlibInstallShield inflater false e.uncompressedSize false
        src with
    | none => none
    | some out =>
        some (.mem e.uncompressedSize
          (out ++ List.replicate (e.uncompressedSize - out.length) 0))

/--
createReadStreamForMember (installshield_cab.cpp:350-441).  `vols`
maps a volume number to its stream when that volume can be opened,
`key` is the lower-cased path bytes.  Returns `none` where the C++
returns nullptr. -/
def createReadStreamForMember (inflater : Inflater) (st : ReaderState)
    (vols : Nat → Option (List Nat)) (key : List Nat) : Option StreamOut :=
  match catLookup st.map key with
  | none => none
  | some e =>
    if e.flags &&& kObfuscated ≠ 0 then none
    else
      match vols e.volume with
      | none => none
      | some stream =>
        if e.flags &&& kSplit ≠ 0 then
          match assembleSplit st.volumeHeaders
              ((List.range st.volumeHeaders.length).map
                (fun i => vols (i + 1))) stream e with
          | none => none
          | some r =>
            if e.flags &&& kCompressed = 0 then
              some (.mem e.uncompressedSize r.1)
            else finishCompressed inflater e (r.1.take e.compressedSize)
        else
          if e.flags &&& kCompressed = 0 then
            some (.sub stream e.offset (e.offset + e.uncompressedSize))
          else
            finishCompressed inflater e (readBytes stream e.offset
              e.compressedSize)

/-! ## Specification-level restatements

The following definitions transcribe the spec's wording (spec §4.4 and
§4.5) rather than the source, and exist to be compared with the
source-derived definitions above. -/

/--
Spec §4.4 step 2, stated as the list of continuation segments: while
`read < need`, take the next volume, fail if it cannot be opened, and
otherwise contribute `first_file_size_compressed` bytes read at
`first_file_offset`, adding that size to `read`. -/
def tailSegsSpec :
    List (VolumeHeader × Option (List Nat)) → Nat → Nat →
    Option (List (List Nat))
  | pairs, need, read =>
    if read < need then
      match pairs with
      | [] => none
      | (_, none) :: _ => none
      | (h, some s) :: rest =>
          match tailSegsSpec rest need (read + h.firstFileSizeCompressed) with
          | none => none
          | some segs =>
              some (readBytes s h.firstFileOffset h.firstFileSizeCompressed
                :: segs)
    else some []

/--
Spec §4.5 step 2, stated with explicit cursors into the source: while
output bytes and input bytes remain, read a 16-bit LE chunk size at the
input cursor, advance it by two, inflate that many following bytes with
the remaining output capacity, and advance both cursors by what was
consumed and produced.  `fuel` decreases once per iteration and each
iteration advances the input cursor by at least two, so the top-level
value `src.length + 1` never runs out. -/
def framedLoopSpec (inflater : Inflater) (src : List Nat) :
    Nat → Nat → Nat → Option (List Nat)
  | 0, _, _ => none
  | fuel + 1, dstRemaining, inCur =>
    if 0 < dstRemaining ∧ inCur < src.length then
      let chunkSize := readU16LE src inCur
      match inflater dstRemaining ((src.drop (inCur + 2)).take chunkSize) with
      | none => none
      | some out =>
          (framedLoopSpec inflater src fuel (dstRemaining - out.length)
            (inCur + 2 + chunkSize)).map (fun r => out ++ r)
    else some []

/--
Spec §4.5: if the source is at least four bytes long and its last four
bytes, read as a big-endian 32-bit value, equal 0x0000FFFF, inflate the
whole source as one headerless zlib stream; otherwise run the chunked
loop from cursor 0. -/
def framedInflaterSpec (inflater : Inflater) (dstLen : Nat)
    (src : List Nat) : Option (List Nat) :=
  if 4 ≤ src.length ∧ readBE32 src (src.length - 4) = 0x0000FFFF then
    inflater dstLen src
  else framedLoopSpec inflater src (src.length + 1) dstLen 0

/-! ## The version formula as the claim states it -/

/-- The version formula of spec paragraph 4.2 step 2: `(magic >> 12) & 0xF`
when `magic >> 24 == 1`, else `(magic & 0xFFFF) / 100`, with a result of
0 treated as 5. -/
def claimVersion (magic : Nat) : Nat :=
  let v0 := if magic >>> 24 = 1 then (magic >>> 12) &&& 0xf
            else (magic &&& 0xffff) / 100
  if v0 = 0 then 5 else v0

/-! ## Concrete example inputs -/

/-- An inflater for examples: copies up to the capacity. -/
def copyInflater : Inflater := fun cap s => some (s.take cap)

/-- A four-byte stream whose signature word is not the cabinet
signature. -/
def badSigStream : List Nat := [0, 0, 0, 0]

/-- A minimal valid version 5 carrier stream: signature plus magic 500
(version 5).  Every later read falls off the end and yields 0, so the
file table is empty. -/
def v5Carrier : List Nat := [0x49, 0x53, 0x63, 0x28, 0xF4, 0x01, 0, 0]

/-- A version 6 carrier stream (magic 600) holding one file record:
file count 1 at offset 40, file-table offset 48, record flags 0,
record data offset 1, and name offset 200 pointing past the end of the
stream, so the name string read there is empty. -/
def v6EmptyNameCarrier : List Nat :=
  [0x49, 0x53, 0x63, 0x28, 0x58, 0x02, 0, 0] ++ List.replicate 32 0 ++
  [1, 0, 0, 0] ++ [48, 0, 0, 0] ++ [0, 0] ++ List.replicate 16 0 ++
  [1, 0, 0, 0] ++ List.replicate 36 0 ++ [200, 0, 0, 0]

/-- Example carrier header whose lastFileSizeCompressed (5) equals the
example entry's compressedSize. -/
def carrierExample : VolumeHeader :=
  { zeroHeader with version := 5, lastFileSizeCompressed := 5 }

/-- Example volume header owning only file index 1, with a
lastFileSizeCompressed (7) different from the example entry's
compressedSize. -/
def ownerExample : VolumeHeader :=
  { zeroHeader with
      firstFileIndex := 1
      lastFileIndex := 1
      lastFileSizeCompressed := 7 }

/-- Example file entry with compressedSize 5 awaiting volume
resolution. -/
def entryExample : FileEntry :=
  { uncompressedSize := 0, compressedSize := 5, offset := 1, flags := 0,
    volume := 0 }

/-- Example starting-volume header whose trailing segment (10 bytes)
exceeds the split entry's compressedSize (5). -/
def splitHeaderExample : VolumeHeader :=
  { zeroHeader with lastFileSizeCompressed := 10 }

/-- Example split entry with compressedSize 5. -/
def splitEntryExample : FileEntry :=
  { uncompressedSize := 12, compressedSize := 5, offset := 0, flags := 1,
    volume := 1 }

/-- Example starting-volume header whose trailing segment is exactly the
split entry's compressedSize. -/
def splitHeaderExact : VolumeHeader :=
  { zeroHeader with lastFileSizeCompressed := 3 }

/-- Example split entry whose 3 compressed bytes all sit in the
starting volume. -/
def splitEntryExact : FileEntry :=
  { uncompressedSize := 3, compressedSize := 3, offset := 0, flags := 1,
    volume := 1 }

/-- Example entry with uncompressedSize 0 but the Compressed flag and a
non-zero compressedSize. -/
def zeroCompressedEntry : FileEntry :=
  { uncompressedSize := 0, compressedSize := 1, offset := 1, flags := 4,
    volume := 1 }

/-- Example entry with uncompressedSize 0 and no flags. -/
def zeroPlainEntry : FileEntry :=
  { uncompressedSize := 0, compressedSize := 3, offset := 1, flags := 0,
    volume := 1 }

/-- Reader state holding only `zeroCompressedEntry` under the path "a". -/
def readerZC : ReaderState :=
  { baseName := [], map := [([97], zeroCompressedEntry)],
    volumeHeaders := [], version := 6, archive := none }

/-- Reader state holding only `zeroPlainEntry` under the path "a". -/
def readerZP : ReaderState :=
  { baseName := [], map := [([97], zeroPlainEntry)],
    volumeHeaders := [], version := 6, archive := none }

/-- Example duplicate-path record on volume 2. -/
def dupEntryA : FileEntry :=
  { uncompressedSize := 0, compressedSize := 0, offset := 1, flags := 0,
    volume := 2 }

/-- Example duplicate-path record on volume 1. -/
def dupEntryB : FileEntry :=
  { uncompressedSize := 9, compressedSize := 9, offset := 9, flags := 0,
    volume := 1 }

/-- Example insertion sequence with one path occurring on volumes 2 and
then 1. -/
def dupPairs : List (List Nat × FileEntry) :=
  [([97], dupEntryA), ([97], dupEntryB)]

/-- The file entry that open() builds from `v6EmptyNameCarrier`. -/
def emptyNameEntry : FileEntry :=
  { uncompressedSize := 0, compressedSize := 0, offset := 1, flags := 0,
    volume := 0 }

/-- The reader state open() reaches on `v6EmptyNameCarrier`: one
catalog entry under the empty path. -/
def readerEmptyName : ReaderState :=
  { baseName := [], map := [([], emptyNameEntry)], volumeHeaders := [],
    version := 6, archive := none }

/-- Example volume source with a single three-byte volume 1. -/
def volsExample : Nat → Option (List Nat) :=
  fun v => if v = 1 then some [9, 9, 9] else none

/-! ## Helper lemmas -/

/-- Setting the Split bit never sets the Invalid bit. -/
theorem or_split_keeps_invalid_clear (f : Nat) (h : f &&& kInvalid = 0) :
    (f ||| kSplit) &&& kInvalid = 0 := by
  have hf3 : f.testBit 3 = false := by
    have h2 : (f.testBit 3 && Nat.testBit 8 3) = false := by
      rw [← Nat.testBit_and]
      rw [show f &&& 8 = 0 from h]
      exact Nat.zero_testBit 3
    simpa [show Nat.testBit 8 3 = true from by decide] using h2
  show (f ||| 1) &&& 8 = 0
  apply Nat.eq_of_testBit_eq
  intro i
  rw [Nat.testBit_and, Nat.testBit_or, Nat.zero_testBit]
  by_cases hi : i = 3
  · subst hi
    simp [hf3, show Nat.testBit 1 3 = false from by decide]
  · have h8 : (8 : Nat).testBit i = false := by
      rw [show (8 : Nat) = 2 ^ 3 from by norm_num]
      exact Nat.testBit_two_pow_of_ne (Ne.symm hi)
    simp [h8]

theorem catLookup_append (m : CatMap) (k k0 : List Nat) (e : FileEntry) :
    catLookup (m ++ [(k0, e)]) k =
      match catLookup m k with
      | some x => some x
      | none => if k0 = k then some e else none := by
  induction m with
  | nil => simp [catLookup]
  | cons p rest ih =>
      obtain ⟨k1, e1⟩ := p
      by_cases hk : k1 = k
      · simp [catLookup, hk]
      · simpa [catLookup, hk] using ih

theorem catLookup_update_self (m : CatMap) (k : List Nat)
    (e old : FileEntry) (h : catLookup m k = some old) :
    catLookup (catUpdate m k e) k = some e := by
  induction m with
  | nil => simp [catLookup] at h
  | cons p rest ih =>
      obtain ⟨k1, e1⟩ := p
      by_cases hk : k1 = k
      · simp [catLookup, catUpdate, hk]
      · simp only [catLookup, catUpdate, hk, if_false, if_neg hk] at h ⊢
        exact ih h

theorem catLookup_update_ne (m : CatMap) (k k0 : List Nat) (e : FileEntry)
    (h : k0 ≠ k) : catLookup (catUpdate m k0 e) k = catLookup m k := by
  induction m with
  | nil => simp [catUpdate]
  | cons p rest ih =>
      obtain ⟨k1, e1⟩ := p
      by_cases hk : k1 = k0
      · have hk1 : k1 ≠ k := by
          rw [hk]
          exact h
        simp [catUpdate, catLookup, hk, hk1, h]
      · by_cases hk2 : k1 = k
        · simp [catUpdate, catLookup, hk, hk2, Ne.symm h]
        · simp [catUpdate, catLookup, hk, hk2, ih]

theorem catLookup_update_cases (m : CatMap) (k k0 : List Nat)
    (e x : FileEntry) (h : catLookup (catUpdate m k0 e) k = some x) :
    x = e ∨ catLookup m k = some x := by
  induction m with
  | nil => simp [catUpdate, catLookup] at h
  | cons p rest ih =>
      obtain ⟨k1, e1⟩ := p
      by_cases hk : k1 = k0
      · simp only [catUpdate, if_pos hk, catLookup] at h
        by_cases hk2 : k1 = k
        · rw [if_pos hk2] at h
          exact Or.inl (Option.some.inj h).symm
        · rw [if_neg hk2] at h
          right
          simp only [catLookup, if_neg hk2]
          exact h
      · simp only [catUpdate, if_neg hk, catLookup] at h
        by_cases hk2 : k1 = k
        · rw [if_pos hk2] at h
          right
          simp only [catLookup, if_pos hk2]
          exact h
        · rw [if_neg hk2] at h
          rcases ih h with h1 | h1
          · exact Or.inl h1
          · right
            simp only [catLookup, if_neg hk2]
            exact h1

theorem catLookup_insert_self (m : CatMap) (k : List Nat) (e : FileEntry) :
    catLookup (catInsert m k e) k =
      some (match catLookup m k with
            | none => e
            | some old => if e.volume < old.volume then e else old) := by
  unfold catInsert
  cases hm : catLookup m k with
  | none => rw [catLookup_append]; simp [hm]
  | some old =>
      by_cases hv : e.volume < old.volume
      · simp only [hv, if_pos hv]
        exact catLookup_update_self m k e old hm
      · simp [hv, hm]

theorem catLookup_insert_ne (m : CatMap) (k k0 : List Nat) (e : FileEntry)
    (h : k0 ≠ k) : catLookup (catInsert m k0 e) k = catLookup m k := by
  unfold catInsert
  cases hm : catLookup m k0 with
  | none =>
      rw [catLookup_append]
      cases hl : catLookup m k with
      | none => simp [h]
      | some y => simp
  | some old =>
      by_cases hv : e.volume < old.volume
      · simp only [if_pos hv]
        exact catLookup_update_ne m k k0 e h
      · simp [hv]

theorem catLookup_insert_cases (m : CatMap) (k k0 : List Nat)
    (e x : FileEntry) (h : catLookup (catInsert m k0 e) k = some x) :
    x = e ∨ catLookup m k = some x := by
  unfold catInsert at h
  cases hm : catLookup m k0 with
  | none =>
      simp only [hm] at h
      rw [catLookup_append] at h
      cases hl : catLookup m k with
      | none =>
          simp only [hl] at h
          by_cases hk : k0 = k
          · rw [if_pos hk] at h
            exact Or.inl (Option.some.inj h).symm
          · rw [if_neg hk] at h
            exact absurd h (by simp)
      | some y =>
          simp only [hl] at h
          exact Or.inr h
  | some old =>
      simp only [hm] at h
      by_cases hv : e.volume < old.volume
      · rw [if_pos hv] at h
        exact catLookup_update_cases m k k0 e x h
      · rw [if_neg hv] at h
        exact Or.inr h

theorem catLookup_insert_self_none (m : CatMap) (k : List Nat)
    (e : FileEntry) (h : catLookup m k = none) :
    catLookup (catInsert m k e) k = some e := by
  have h2 := catLookup_insert_self m k e
  rw [h] at h2
  exact h2

theorem catLookup_insert_self_some (m : CatMap) (k : List Nat)
    (e old : FileEntry) (h : catLookup m k = some old) :
    catLookup (catInsert m k e) k =
      some (if e.volume < old.volume then e else old) := by
  have h2 := catLookup_insert_self m k e
  rw [h] at h2
  exact h2

theorem buildMapFrom_cons (m : CatMap) (k : List Nat) (e : FileEntry)
    (ps : List (List Nat × FileEntry)) :
    buildMapFrom m ((k, e) :: ps) = buildMapFrom (catInsert m k e) ps := rfl

theorem buildMapFrom_preserve (ps : List (List Nat × FileEntry))
    (m : CatMap) (k : List Nat) (eb : FileEntry)
    (h : catLookup m k = some eb) :
    ∃ e, catLookup (buildMapFrom m ps) k = some e ∧
      e.volume ≤ eb.volume ∧ ((k, e) ∈ ps ∨ e = eb) := by
  induction ps generalizing m eb with
  | nil => exact ⟨eb, h, le_refl _, Or.inr rfl⟩
  | cons p ps ih =>
      obtain ⟨k0, e0⟩ := p
      rw [buildMapFrom_cons]
      by_cases hk : k0 = k
      · subst hk
        have hins := catLookup_insert_self_some m k0 e0 eb h
        by_cases hv : e0.volume < eb.volume
        · rw [if_pos hv] at hins
          obtain ⟨e, he, hev, hm⟩ := ih (catInsert m k0 e0) e0 hins
          refine ⟨e, he, le_trans hev (le_of_lt hv), ?_⟩
          rcases hm with hm | hm
          · exact Or.inl (List.mem_cons_of_mem _ hm)
          · subst hm
            exact Or.inl (List.mem_cons_self _ _)
        · rw [if_neg hv] at hins
          obtain ⟨e, he, hev, hm⟩ := ih (catInsert m k0 e0) eb hins
          refine ⟨e, he, hev, ?_⟩
          rcases hm with hm | hm
          · exact Or.inl (List.mem_cons_of_mem _ hm)
          · exact Or.inr hm
      · have hins : catLookup (catInsert m k0 e0) k = some eb := by
          rw [catLookup_insert_ne m k k0 e0 hk]
          exact h
        obtain ⟨e, he, hev, hm⟩ := ih (catInsert m k0 e0) eb hins
        refine ⟨e, he, hev, ?_⟩
        rcases hm with hm | hm
        · exact Or.inl (List.mem_cons_of_mem _ hm)
        · exact Or.inr hm

theorem buildMapFrom_min (ps : List (List Nat × FileEntry)) (m : CatMap)
    (k : List Nat) (e : FileEntry)
    (h : catLookup (buildMapFrom m ps) k = some e) :
    ∀ e2, (k, e2) ∈ ps → e.volume ≤ e2.volume := by
  induction ps generalizing m with
  | nil => intro e2 h2; simp at h2
  | cons p ps ih =>
      obtain ⟨k0, e0⟩ := p
      rw [buildMapFrom_cons] at h
      intro e2 h2
      rcases List.mem_cons.mp h2 with h2 | h2
      · have hk : k = k0 := congrArg Prod.fst h2
        have he : e2 = e0 := congrArg Prod.snd h2
        subst hk
        subst he
        cases hl : catLookup m k with
        | none =>
            have hins := catLookup_insert_self_none m k e2 hl
            obtain ⟨e1, he1, he1v, _⟩ :=
              buildMapFrom_preserve ps (catInsert m k e2) k e2 hins
            rw [h] at he1
            cases Option.some.inj he1
            exact he1v
        | some old =>
            have hins := catLookup_insert_self_some m k e2 old hl
            obtain ⟨e1, he1, he1v, _⟩ :=
              buildMapFrom_preserve ps (catInsert m k e2) k _ hins
            rw [h] at he1
            cases Option.some.inj he1
            refine le_trans he1v ?_
            by_cases hv : e2.volume < old.volume
            · rw [if_pos hv]
            · rw [if_neg hv]
              exact le_of_not_lt hv
      · exact ih (catInsert m k0 e0) h e2 h2

theorem buildMapFrom_mem (ps : List (List Nat × FileEntry)) (m : CatMap)
    (k : List Nat) (e : FileEntry) (hm : catLookup m k = none)
    (h : catLookup (buildMapFrom m ps) k = some e) : (k, e) ∈ ps := by
  induction ps generalizing m with
  | nil =>
      simp only [buildMapFrom] at h
      rw [hm] at h
      cases h
  | cons p ps ih =>
      obtain ⟨k0, e0⟩ := p
      rw [buildMapFrom_cons] at h
      by_cases hk : k0 = k
      · subst hk
        have hins := catLookup_insert_self_none m k0 e0 hm
        obtain ⟨e1, he1, _, hmem⟩ :=
          buildMapFrom_preserve ps (catInsert m k0 e0) k0 e0 hins
        rw [h] at he1
        cases Option.some.inj he1
        rcases hmem with hmem | hmem
        · exact List.mem_cons_of_mem _ hmem
        · subst hmem
          exact List.mem_cons_self _ _
      · have hm2 : catLookup (catInsert m k0 e0) k = none := by
          rw [catLookup_insert_ne m k k0 e0 hk]
          exact hm
        exact List.mem_cons_of_mem _ (ih (catInsert m k0 e0) hm2 h)

theorem buildMapFrom_exists (ps : List (List Nat × FileEntry)) (m : CatMap)
    (k : List Nat) (e0 : FileEntry) (hmem : (k, e0) ∈ ps) :
    ∃ e, catLookup (buildMapFrom m ps) k = some e := by
  induction ps generalizing m with
  | nil => simp at hmem
  | cons p ps ih =>
      obtain ⟨k1, e1⟩ := p
      rw [buildMapFrom_cons]
      rcases List.mem_cons.mp hmem with h2 | h2
      · have hk : k = k1 := congrArg Prod.fst h2
        subst hk
        cases hl : catLookup m k with
        | none =>
            obtain ⟨e, he, _, _⟩ := buildMapFrom_preserve ps (catInsert m k e1) k e1
              (catLookup_insert_self_none m k e1 hl)
            exact ⟨e, he⟩
        | some old =>
            obtain ⟨e, he, _, _⟩ := buildMapFrom_preserve ps (catInsert m k e1) k _
              (catLookup_insert_self_some m k e1 old hl)
            exact ⟨e, he⟩
      · exact ih (catInsert m k1 e1) h2

theorem resolveEntry_of_none (carrier : VolumeHeader)
    (hdrs : List VolumeHeader) (i fidx : Nat) (e : FileEntry)
    (h : findOwner hdrs i fidx = none) :
    resolveEntry carrier hdrs i fidx e = e := by
  induction hdrs generalizing i with
  | nil => rfl
  | cons hd rest ih =>
      simp only [findOwner] at h
      by_cases hc : hd.firstFileIndex ≤ fidx ∧ fidx ≤ hd.lastFileIndex
      · rw [if_pos hc] at h
        cases h
      · rw [if_neg hc] at h
        simp only [resolveEntry, if_neg hc]
        exact ih (i + 1) h

theorem resolveEntry_of_some (carrier : VolumeHeader)
    (hdrs : List VolumeHeader) (i fidx : Nat) (e : FileEntry)
    (j : Nat) (hj : VolumeHeader)
    (h : findOwner hdrs i fidx = some (j, hj)) :
    resolveEntry carrier hdrs i fidx e =
      { e with volume := j,
               flags := if fidx = hj.lastFileIndex ∧
                   e.compressedSize ≠ carrier.lastFileSizeCompressed ∧
                   carrier.lastFileSizeCompressed ≠ 0
                 then e.flags ||| kSplit else e.flags } := by
  induction hdrs generalizing i with
  | nil => cases h
  | cons hd rest ih =>
      simp only [findOwner] at h
      by_cases hc : hd.firstFileIndex ≤ fidx ∧ fidx ≤ hd.lastFileIndex
      · rw [if_pos hc] at h
        obtain ⟨hji, hjh⟩ := Prod.mk.injEq .. ▸ Option.some.inj h
        subst hji
        subst hjh
        simp only [resolveEntry, if_pos hc]
      · rw [if_neg hc] at h
        simp only [resolveEntry, if_neg hc]
        exact ih (i + 1) h

theorem resolveEntry_offset (carrier : VolumeHeader)
    (hdrs : List VolumeHeader) (i fidx : Nat) (e : FileEntry) :
    (resolveEntry carrier hdrs i fidx e).offset = e.offset := by
  induction hdrs generalizing i with
  | nil => rfl
  | cons hd rest ih =>
      by_cases hc : hd.firstFileIndex ≤ fidx ∧ fidx ≤ hd.lastFileIndex
      · simp only [resolveEntry, if_pos hc]
      · simp only [resolveEntry, if_neg hc]
        exact ih (i + 1)

theorem resolveEntry_invalid (carrier : VolumeHeader)
    (hdrs : List VolumeHeader) (i fidx : Nat) (e : FileEntry)
    (he : e.flags &&& kInvalid = 0) :
    (resolveEntry carrier hdrs i fidx e).flags &&& kInvalid = 0 := by
  induction hdrs generalizing i with
  | nil => exact he
  | cons hd rest ih =>
      by_cases hc : hd.firstFileIndex ≤ fidx ∧ fidx ≤ hd.lastFileIndex
      · simp only [resolveEntry, if_pos hc]
        by_cases hs : fidx = hd.lastFileIndex ∧
            e.compressedSize ≠ carrier.lastFileSizeCompressed ∧
            carrier.lastFileSizeCompressed ≠ 0
        · rw [if_pos hs]
          exact or_split_keeps_invalid_clear e.flags he
        · rw [if_neg hs]
          exact he
      · simp only [resolveEntry, if_neg hc]
        exact ih (i + 1)

/-- Invariant of catalog entries checked by the skip rule. -/
def MapP (m : CatMap) : Prop :=
  ∀ k e, catLookup m k = some e → e.offset ≠ 0 ∧ e.flags &&& kInvalid = 0

theorem mapP_nil : MapP [] := by
  intro k e h
  cases h

theorem mapP_insert (m : CatMap) (k : List Nat) (e : FileEntry)
    (hm : MapP m) (ho : e.offset ≠ 0) (hi : e.flags &&& kInvalid = 0) :
    MapP (catInsert m k e) := by
  intro k2 e2 h2
  rcases catLookup_insert_cases m k2 k e e2 h2 with h3 | h3
  · subst h3
    exact ⟨ho, hi⟩
  · exact hm k2 e2 h3

theorem v6Step_mapP (file : List Nat) (cdo fto fto2 : Nat) (m : CatMap)
    (j : Nat) (hm : MapP m) : MapP (v6Step file cdo fto fto2 m j) := by
  unfold v6Step
  by_cases hc : (readV6Entry file (u32 (cdo + fto + fto2 + j * 0x57))).1 = 0 ∨
      (readV6Entry file (u32 (cdo + fto + fto2 + j * 0x57))).2.offset = 0 ∨
      (readV6Entry file (u32 (cdo + fto + fto2 + j * 0x57))).2.flags &&&
        kInvalid ≠ 0
  · rw [if_pos hc]
    exact hm
  · rw [if_neg hc]
    push_neg at hc
    exact mapP_insert _ _ _ hm hc.2.1 hc.2.2

theorem buildV6_mapP (file : List Nat) (cdo fto fto2 : Nat) (js : List Nat)
    (m : CatMap) (hm : MapP m) : MapP (buildV6 file cdo fto fto2 js m) := by
  induction js generalizing m with
  | nil => exact hm
  | cons j js ih =>
      exact ih _ (v6Step_mapP file cdo fto fto2 m j hm)

theorem v5Step_mapP (carrier : VolumeHeader) (hdrs : List VolumeHeader)
    (file : List Nat) (cdo fto : Nat) (st st' : Nat × CatMap) (t : Nat)
    (hm : MapP st.2) (h : v5Step carrier hdrs file cdo fto st t = some st') :
    MapP st'.2 := by
  unfold v5Step at h
  by_cases hc : (readV5Entry file (u32 (cdo + fto + t))).1 = 0 ∨
      (readV5Entry file (u32 (cdo + fto + t))).2.offset = 0 ∨
      (readV5Entry file (u32 (cdo + fto + t))).2.flags &&& kInvalid ≠ 0
  · rw [if_pos hc] at h
    cases Option.some.inj h
    exact hm
  · rw [if_neg hc] at h
    push_neg at hc
    by_cases hz : (resolveEntry carrier hdrs 1 st.1
        (readV5Entry file (u32 (cdo + fto + t))).2).volume = 0
    · rw [if_pos hz] at h
      cases h
    · rw [if_neg hz] at h
      cases Option.some.inj h
      refine mapP_insert _ _ _ hm ?_ ?_
      · rw [resolveEntry_offset]
        exact hc.2.1
      · exact resolveEntry_invalid carrier hdrs 1 st.1 _ hc.2.2

theorem buildV5_mapP (carrier : VolumeHeader) (hdrs : List VolumeHeader)
    (file : List Nat) (cdo fto : Nat) (ts : List Nat) (st st' : Nat × CatMap)
    (hm : MapP st.2)
    (h : buildV5 carrier hdrs file cdo fto ts st = some st') :
    MapP st'.2 := by
  induction ts generalizing st with
  | nil =>
      simp only [buildV5] at h
      cases Option.some.inj h
      exact hm
  | cons t ts ih =>
      simp only [buildV5] at h
      cases hs : v5Step carrier hdrs file cdo fto st t with
      | none => rw [hs] at h; cases h
      | some st2 =>
          rw [hs] at h
          exact ih st2 (v5Step_mapP carrier hdrs file cdo fto st st2 t hm hs) h

theorem openCab_mapP (vols : List (List Nat)) (hdr : Option (List Nat))
    (bn : List Nat) (arch : Option Nat) (st : ReaderState)
    (h : openCab vols hdr bn arch = (st, none)) : MapP st.map := by
  unfold openCab at h
  cases hc : carrierOf vols hdr with
  | none =>
      rw [hc] at h
      have h2 := congrArg Prod.snd h
      simp at h2
  | some c =>
      rw [hc] at h
      dsimp only at h
      rcases hv : readVolumeHeader c with ⟨hh, oe⟩
      rw [hv] at h
      cases oe with
      | some e =>
          have h2 := congrArg Prod.snd h
          simp at h2
      | none =>
          dsimp only at h
          by_cases h6 : 6 ≤ hh.version
          · rw [if_pos h6] at h
            have h1 := congrArg Prod.fst h
            simp only at h1
            rw [← h1]
            exact buildV6_mapP _ _ _ _ _ [] mapP_nil
          · rw [if_neg h6] at h
            cases hb : buildV5 hh (vols.map enumVolumeHeader) c
                hh.cabDescriptorOffset
                (readU32LE c (hh.cabDescriptorOffset + 12))
                (((List.range (readU32LE c (hh.cabDescriptorOffset + 28) +
                    readU32LE c (hh.cabDescriptorOffset + 40))).map
                  (fun j => readU32LE c
                    (u32 (hh.cabDescriptorOffset +
                      readU32LE c (hh.cabDescriptorOffset + 12)) + 4 * j))).drop
                  (readU32LE c (hh.cabDescriptorOffset + 28))) (0, []) with
            | none =>
                rw [hb] at h
                have h2 := congrArg Prod.snd h
                simp at h2
            | some p =>
                rw [hb] at h
                have h1 := congrArg Prod.fst h
                simp only at h1
                rw [← h1]
                exact buildV5_mapP _ _ _ _ _ _ _ _ mapP_nil hb

theorem byteAt_drop (s : List Nat) (c i : Nat) :
    byteAt (s.drop c) i = byteAt s (c + i) := by
  simp [byteAt, List.getD_eq_getElem?_getD, List.getElem?_drop]

theorem readU16LE_drop (s : List Nat) (c : Nat) :
    readU16LE (s.drop c) 0 = readU16LE s c := by
  simp only [readU16LE, byteAt_drop]
  norm_num

theorem inflateChunks_eq_spec (inflater : Inflater) (src : List Nat) :
    ∀ fuel dstLen c,
      inflateChunks inflater fuel dstLen (src.drop c) =
        framedLoopSpec inflater src fuel dstLen c := by
  intro fuel
  induction fuel with
  | zero =>
      intro dstLen c
      rfl
  | succ fuel ih =>
      intro dstLen c
      simp only [inflateChunks, framedLoopSpec]
      by_cases hstop : dstLen = 0 ∨ src.drop c = []
      · rw [if_pos hstop]
        have hneg : ¬(0 < dstLen ∧ c < src.length) := by
          rcases hstop with h | h
          · intro hcon
            omega
          · intro hcon
            have := List.drop_eq_nil_iff.mp h
            omega
        rw [if_neg hneg]
      · rw [if_neg hstop]
        push_neg at hstop
        have hcond : 0 < dstLen ∧ c < src.length := by
          refine ⟨Nat.pos_of_ne_zero hstop.1, ?_⟩
          by_contra hcon
          push_neg at hcon
          exact hstop.2 (List.drop_eq_nil_iff.mpr hcon)
        rw [if_pos hcond]
        rw [readU16LE_drop]
        have hdata : (src.drop c).drop 2 = src.drop (c + 2) :=
          List.drop_drop 2 c src
        rw [hdata]
        cases hi : inflater dstLen ((src.drop (c + 2)).take (readU16LE src c))
          with
        | none => rfl
        | some out =>
            have hrec : (src.drop c).drop (2 + readU16LE src c) =
                src.drop (c + 2 + readU16LE src c) := by
              rw [List.drop_drop]
              congr 1
              omega
            dsimp only
            rw [hrec]
            rw [ih (dstLen - out.length) (c + 2 + readU16LE src c)]
            cases framedLoopSpec inflater src fuel (dstLen - out.length)
                (c + 2 + readU16LE src c) with
            | none => rfl
            | some r => rfl

theorem readBytes_length (s : List Nat) (p n : Nat) :
    (readBytes s p n).length = n := by
  simp [readBytes]

theorem assembleTail_eq_spec :
    ∀ (pairs : List (VolumeHeader × Option (List Nat))) (need read : Nat)
      (acc : List Nat),
      assembleTail pairs need read acc =
        match tailSegsSpec pairs need read with
        | none => none
        | some segs =>
            some (acc ++ segs.flatten, read + (segs.map List.length).sum) := by
  intro pairs
  induction pairs with
  | nil =>
      intro need read acc
      simp only [assembleTail, tailSegsSpec]
      by_cases h : read < need
      · rw [if_pos h, if_pos h]
      · rw [if_neg h, if_neg h]
        dsimp only
        simp
  | cons p rest ih =>
      intro need read acc
      obtain ⟨h, os⟩ := p
      cases os with
      | none =>
          simp only [assembleTail, tailSegsSpec]
          by_cases hlt : read < need
          · rw [if_pos hlt, if_pos hlt]
          · rw [if_neg hlt, if_neg hlt]
            dsimp only
            simp
      | some s =>
          simp only [assembleTail, tailSegsSpec]
          by_cases hlt : read < need
          · rw [if_pos hlt, if_pos hlt]
            rw [ih]
            cases tailSegsSpec rest need (read + h.firstFileSizeCompressed)
              with
            | none => rfl
            | some segs =>
                dsimp only
                simp only [List.flatten, List.map, List.sum_cons,
                  readBytes_length, List.append_assoc,
                  Option.some.injEq, Prod.mk.injEq]
                exact ⟨trivial, by omega⟩
          · rw [if_neg hlt, if_neg hlt]
            dsimp only
            simp

theorem assembleTail_ge :
    ∀ (pairs : List (VolumeHeader × Option (List Nat))) (need read : Nat)
      (acc out : List Nat) (r : Nat),
      assembleTail pairs need read acc = some (out, r) → need ≤ r := by
  intro pairs
  induction pairs with
  | nil =>
      intro need read acc out r hp
      simp only [assembleTail] at hp
      by_cases h : read < need
      · rw [if_pos h] at hp
        cases hp
      · rw [if_neg h] at hp
        obtain ⟨_, h2⟩ := Prod.mk.injEq .. ▸ Option.some.inj hp
        omega
  | cons p rest ih =>
      intro need read acc out r hp
      obtain ⟨h, os⟩ := p
      cases os with
      | none =>
          simp only [assembleTail] at hp
          by_cases hlt : read < need
          · rw [if_pos hlt] at hp
            cases hp
          · rw [if_neg hlt] at hp
            obtain ⟨_, h2⟩ := Prod.mk.injEq .. ▸ Option.some.inj hp
            omega
      | some s =>
          simp only [assembleTail] at hp
          by_cases hlt : read < need
          · rw [if_pos hlt] at hp
            exact ih need (read + h.firstFileSizeCompressed) _ out r hp
          · rw [if_neg hlt] at hp
            obtain ⟨_, h2⟩ := Prod.mk.injEq .. ▸ Option.some.inj hp
            omega

/-! ## Claim theorems -/

/-- C9 counterexample: close() on a reader holding a backend handle does
not return it to the freshly-constructed state, because `_archive` is
not reset; this refutes the claim that every field, including the
archive-backend handle, equals its freshly-constructed value. -/
theorem c9_counterexample :
    closeFn { baseName := [], map := [], volumeHeaders := [], version := 0,
              archive := some 0 } ≠ initReader := by
  decide

/-- C9 (amended): close() clears the base name, the catalog, the volume
header sequence and the version, so the reader equals the
freshly-constructed state except that the archive-backend handle keeps
its pre-close value; the result equals the constructed state exactly
when that handle was still unset. -/
theorem c9_theorem (s : ReaderState) :
    closeFn s = { initReader with archive := s.archive } ∧
      (closeFn s = initReader ↔ s.archive = none) := by
  constructor
  · rfl
  · constructor
    · intro h
      exact congrArg ReaderState.archive h
    · intro h
      show ReaderState.mk [] [] [] 0 s.archive = initReader
      rw [h]
      rfl

/-- C10: the decompression entry point fails, for every inflater, when
the destination pointer is null, the destination length is 0, the
source pointer is null or the source length is 0; in particular a
zero-length destination never succeeds.  The result is `none`
uniformly in the inflater argument, so the underlying inflater is
never consulted. -/
theorem c10_theorem (inflater : Inflater) (dstNull : Bool) (dstLen : Nat)
    (srcNull : Bool) (src : List Nat)
    (h : dstNull = true ∨ dstLen = 0 ∨ srcNull = true ∨ src.length = 0) :
    inflateZlibInstallShield inflater dstNull dstLen srcNull src = none := by
  unfold inflateZlibInstallShield
  rw [if_pos h]

/-- C10 witness: a zero-length destination fails even with non-null
pointers, a well-formed two-byte source and an inflater that always
succeeds. -/
theorem c10_witness :
    ((false : Bool) = true ∨ (0 : Nat) = 0 ∨ (false : Bool) = true ∨
      ([120, 156] : List Nat).length = 0) ∧
    inflateZlibInstallShield copyInflater false 0 false [120, 156] = none :=
  ⟨Or.inr (Or.inl rfl),
   c10_theorem copyInflater false 0 false [120, 156] (Or.inr (Or.inl rfl))⟩

/-- C4: after any sequence of catalog insertions, every path that
occurs among the inserted pairs maps to an inserted record whose
volume is minimal among that path's occurrences (so a path occurring
once maps to its single record). -/
theorem c4_theorem (ps : List (List Nat × FileEntry)) (k : List Nat)
    (e0 : FileEntry) (hmem : (k, e0) ∈ ps) :
    ∃ e, catLookup (buildMap ps) k = some e ∧ (k, e) ∈ ps ∧
      ∀ e2, (k, e2) ∈ ps → e.volume ≤ e2.volume := by
  obtain ⟨e, he⟩ := buildMapFrom_exists ps [] k e0 hmem
  exact ⟨e, he, buildMapFrom_mem ps [] k e rfl he,
    buildMapFrom_min ps [] k e he⟩

/-- C4 witness: inserting the same path with volume 2 and then volume 1
leaves a catalog entry with the minimal volume. -/
theorem c4_witness :
    ([97], dupEntryA) ∈ dupPairs ∧
    (∃ e, catLookup (buildMap dupPairs) [97] = some e ∧
      ([97], e) ∈ dupPairs ∧
      ∀ e2, ([97], e2) ∈ dupPairs → e.volume ≤ e2.volume) :=
  ⟨by decide, c4_theorem dupPairs [97] dupEntryA (by decide)⟩

/-- C2: on a stream with a valid signature, the decoded version is
exactly the claim formula — `(magic >> 12) & 0xF` when
`magic >> 24 == 1`, else `(magic & 0xFFFF) / 100`, a result of 0
treated as 5 — and the decode fails with UnsupportedVersion exactly
when that final version is outside [5, 13]. -/
theorem c2_theorem (s : List Nat) (hsig : readU32LE s 0 = 0x28635349) :
    ((5 ≤ claimVersion (readU32LE s 4) ∧ claimVersion (readU32LE s 4) ≤ 13) →
      (readVolumeHeader s).1.version = claimVersion (readU32LE s 4) ∧
      (readVolumeHeader s).2 = none) ∧
    (¬(5 ≤ claimVersion (readU32LE s 4) ∧ claimVersion (readU32LE s 4) ≤ 13) →
      (readVolumeHeader s).2 = some .unsupportedVersion) := by
  simp only [readVolumeHeader, claimVersion]
  rw [if_neg (not_not_intro hsig)]
  constructor
  · intro h
    rw [if_neg (by omega)]
    by_cases h5 : (if (if readU32LE s 4 >>> 24 = 1
        then readU32LE s 4 >>> 12 &&& 0xf
        else (readU32LE s 4 &&& 0xffff) / 100) = 0 then 5
        else if readU32LE s 4 >>> 24 = 1
        then readU32LE s 4 >>> 12 &&& 0xf
        else (readU32LE s 4 &&& 0xffff) / 100) = 5
    · rw [if_pos h5]
      exact ⟨h5.symm ▸ rfl, rfl⟩
    · rw [if_neg h5]
      exact ⟨rfl, rfl⟩
  · intro h
    rw [if_pos (by omega)]

/-- C2 witness: the minimal version 5 carrier has a valid signature and
decodes to version 5 with no error. -/
theorem c2_witness :
    readU32LE v5Carrier 0 = 0x28635349 ∧
    (((5 ≤ claimVersion (readU32LE v5Carrier 4) ∧
        claimVersion (readU32LE v5Carrier 4) ≤ 13) →
      (readVolumeHeader v5Carrier).1.version =
        claimVersion (readU32LE v5Carrier 4) ∧
      (readVolumeHeader v5Carrier).2 = none) ∧
    (¬(5 ≤ claimVersion (readU32LE v5Carrier 4) ∧
        claimVersion (readU32LE v5Carrier 4) ≤ 13) →
      (readVolumeHeader v5Carrier).2 = some .unsupportedVersion)) :=
  ⟨by decide, c2_theorem v5Carrier (by decide)⟩

/-- C1 counterexample: volume 1 of this cabinet has a bad signature,
yet open() succeeds because the enumeration loop discards
readVolumeHeader's result; only the carrier's header is checked.  This
refutes the claim for non-carrier volumes read during open(). -/
theorem c1_counterexample :
    readU32LE badSigStream 0 ≠ 0x28635349 ∧
    (openCab [badSigStream] (some v5Carrier) [] none).2 = none ∧
    (openCab [badSigStream] (some v5Carrier) [] none).1.volumeHeaders =
      [zeroHeader] := by
  decide

/-- C1 (amended): a stream whose first four little-endian bytes are not
0x28635349 always fails to decode with BadSignature, and open() fails
— leaving the catalog empty — when the CARRIER stream (the .hdr file,
or volume 1 in its absence) has such a signature; bad signatures on
enumerated non-carrier volumes are ignored. -/
theorem c1_theorem :
    (∀ s : List Nat, readU32LE s 0 ≠ 0x28635349 →
      readVolumeHeader s = (zeroHeader, some .badSignature)) ∧
    (∀ (vols : List (List Nat)) (hdr : Option (List Nat)) (bn : List Nat)
       (arch : Option Nat) (c : List Nat),
      carrierOf vols hdr = some c → readU32LE c 0 ≠ 0x28635349 →
      openCab vols hdr bn arch =
        (closedReader arch, some (.decode .badSignature)) ∧
      (openCab vols hdr bn arch).1.map = []) := by
  have hbad : ∀ s : List Nat, readU32LE s 0 ≠ 0x28635349 →
      readVolumeHeader s = (zeroHeader, some .badSignature) := by
    intro s h
    unfold readVolumeHeader
    rw [if_pos h]
  refine ⟨hbad, ?_⟩
  intro vols hdr bn arch c hc hsig
  have h1 : openCab vols hdr bn arch =
      (closedReader arch, some (.decode .badSignature)) := by
    unfold openCab
    rw [hc]
    dsimp only
    rw [hbad c hsig]
  refine ⟨h1, ?_⟩
  rw [h1]
  rfl

/-- C1 witness: open() on a cabinet whose carrier stream has signature
0 fails with BadSignature and an empty catalog. -/
theorem c1_witness :
    carrierOf [] (some badSigStream) = some badSigStream ∧
    readU32LE badSigStream 0 ≠ 0x28635349 ∧
    openCab [] (some badSigStream) [] none =
      (closedReader none, some (.decode .badSignature)) :=
  ⟨rfl, by decide,
   (c1_theorem.2 [] (some badSigStream) [] none badSigStream rfl
     (by decide)).1⟩

/-- C5 counterexample: open() succeeds on a carrier whose single record
has name_offset 200 pointing at end-of-stream, producing a catalog
entry whose logical path is EMPTY; this refutes the claim's inference
that name_offset != 0 yields a non-empty logical path. -/
theorem c5_counterexample :
    (openCab [] (some v6EmptyNameCarrier) [] none).2 = none ∧
    catLookup (openCab [] (some v6EmptyNameCarrier) [] none).1.map [] =
      some emptyNameEntry := by
  decide

/-- C5 (amended): every catalog entry after a successful open() has a
non-zero offset and a clear Invalid flag, and a file-table record whose
name_offset is 0, whose offset is 0 or whose Invalid flag is set is
skipped, leaving the catalog and (on the version 5 path) the file
index unchanged; however a record with non-zero name_offset may still
produce an empty logical path. -/
theorem c5_theorem :
    (∀ (vols : List (List Nat)) (hdr : Option (List Nat)) (bn : List Nat)
       (arch : Option Nat) (st : ReaderState),
      openCab vols hdr bn arch = (st, none) →
      ∀ k e, catLookup st.map k = some e →
        e.offset ≠ 0 ∧ e.flags &&& kInvalid = 0) ∧
    (∀ (file : List Nat) (cdo fto fto2 : Nat) (m : CatMap) (j : Nat),
      ((readV6Entry file (u32 (cdo + fto + fto2 + j * 0x57))).1 = 0 ∨
       (readV6Entry file (u32 (cdo + fto + fto2 + j * 0x57))).2.offset = 0 ∨
       (readV6Entry file (u32 (cdo + fto + fto2 + j * 0x57))).2.flags &&&
         kInvalid ≠ 0) →
      v6Step file cdo fto fto2 m j = m) ∧
    (∀ (carrier : VolumeHeader) (hdrs : List VolumeHeader) (file : List Nat)
       (cdo fto : Nat) (st : Nat × CatMap) (t : Nat),
      ((readV5Entry file (u32 (cdo + fto + t))).1 = 0 ∨
       (readV5Entry file (u32 (cdo + fto + t))).2.offset = 0 ∨
       (readV5Entry file (u32 (cdo + fto + t))).2.flags &&& kInvalid ≠ 0) →
      v5Step carrier hdrs file cdo fto st t = some st) := by
  refine ⟨?_, ?_, ?_⟩
  · intro vols hdr bn arch st h k e he
    exact openCab_mapP vols hdr bn arch st h k e he
  · intro file cdo fto fto2 m j h
    unfold v6Step
    rw [if_pos h]
  · intro carrier hdrs file cdo fto st t h
    unfold v5Step
    rw [if_pos h]

/-- C5 witness: the entry open() builds from `v6EmptyNameCarrier`
satisfies the catalog invariant. -/
theorem c5_witness :
    openCab [] (some v6EmptyNameCarrier) [] none = (readerEmptyName, none) ∧
    catLookup readerEmptyName.map [] = some emptyNameEntry ∧
    (emptyNameEntry.offset ≠ 0 ∧ emptyNameEntry.flags &&& kInvalid = 0) :=
  ⟨by decide, by decide,
   c5_theorem.1 [] (some v6EmptyNameCarrier) [] none readerEmptyName
     (by decide) [] emptyNameEntry (by decide)⟩

/-- C3 counterexample: file index 1 is owned by the second header
(the first header's range [0,0] does not contain it); the claim's
split condition against the OWNING header holds — 1 is its
lastFileIndex, the entry's compressedSize 5 differs from its
lastFileSizeCompressed 7, which is non-zero — yet the code leaves the
Split flag clear, because it compares against the CARRIER header's
lastFileSizeCompressed (5, equal to the entry's size). -/
theorem c3_counterexample :
    findOwner [zeroHeader, ownerExample] 1 1 = some (2, ownerExample) ∧
    (1 = ownerExample.lastFileIndex ∧
     entryExample.compressedSize ≠ ownerExample.lastFileSizeCompressed ∧
     ownerExample.lastFileSizeCompressed ≠ 0) ∧
    (resolveEntry carrierExample [zeroHeader, ownerExample] 1 1
        entryExample).volume = 2 ∧
    (resolveEntry carrierExample [zeroHeader, ownerExample] 1 1
        entryExample).flags &&& kSplit = 0 := by
  decide

/-- C3 (amended): in the version 5 catalog build the owning volume is
the first header (scanning 1..N) whose index range contains the file
index, and the Split flag is set exactly when the file index equals
that owner's lastFileIndex AND the entry's compressedSize differs from
the CARRIER header's lastFileSizeCompressed AND the carrier's
lastFileSizeCompressed is non-zero; when no header's range contains
the index, the record's processing step fails, which aborts the
catalog build (MissingVolume). -/
theorem c3_theorem :
    (∀ (carrier : VolumeHeader) (hdrs : List VolumeHeader) (fidx : Nat)
       (e : FileEntry) (j : Nat) (hj : VolumeHeader),
      findOwner hdrs 1 fidx = some (j, hj) →
      resolveEntry carrier hdrs 1 fidx e =
        { e with volume := j,
                 flags := if fidx = hj.lastFileIndex ∧
                     e.compressedSize ≠ carrier.lastFileSizeCompressed ∧
                     carrier.lastFileSizeCompressed ≠ 0
                   then e.flags ||| kSplit else e.flags }) ∧
    (∀ (carrier : VolumeHeader) (hdrs : List VolumeHeader) (fidx : Nat)
       (e : FileEntry),
      findOwner hdrs 1 fidx = none →
      resolveEntry carrier hdrs 1 fidx e = e) ∧
    (∀ (carrier : VolumeHeader) (hdrs : List VolumeHeader) (file : List Nat)
       (cdo fto : Nat) (st : Nat × CatMap) (t : Nat),
      ¬((readV5Entry file (u32 (cdo + fto + t))).1 = 0 ∨
        (readV5Entry file (u32 (cdo + fto + t))).2.offset = 0 ∨
        (readV5Entry file (u32 (cdo + fto + t))).2.flags &&& kInvalid ≠ 0) →
      findOwner hdrs 1 st.1 = none →
      v5Step carrier hdrs file cdo fto st t = none) ∧
    (∀ (carrier : VolumeHeader) (hdrs : List VolumeHeader) (file : List Nat)
       (cdo fto : Nat) (st : Nat × CatMap) (t : Nat) (ts : List Nat),
      v5Step carrier hdrs file cdo fto st t = none →
      buildV5 carrier hdrs file cdo fto (t :: ts) st = none) := by
  refine ⟨?_, ?_, ?_, ?_⟩
  · intro carrier hdrs fidx e j hj h
    exact resolveEntry_of_some carrier hdrs 1 fidx e j hj h
  · intro carrier hdrs fidx e h
    exact resolveEntry_of_none carrier hdrs 1 fidx e h
  · intro carrier hdrs file cdo fto st t hchk hown
    unfold v5Step
    rw [if_neg hchk]
    rw [resolveEntry_of_none carrier hdrs 1 st.1 _ hown]
    dsimp only
    rw [if_pos (show (readV5Entry file (u32 (cdo + fto + t))).2.volume = 0
      from rfl)]
  · intro carrier hdrs file cdo fto st t ts h
    simp only [buildV5]
    rw [h]

/-- C3 witness: file index 0 is owned by the single example header and
the resolved entry matches the characterization. -/
theorem c3_witness :
    findOwner [splitHeaderExample] 1 0 = some (1, splitHeaderExample) ∧
    resolveEntry carrierExample [splitHeaderExample] 1 0 entryExample =
      { entryExample with
          volume := 1,
          flags := if 0 = splitHeaderExample.lastFileIndex ∧
              entryExample.compressedSize ≠
                carrierExample.lastFileSizeCompressed ∧
              carrierExample.lastFileSizeCompressed ≠ 0
            then entryExample.flags ||| kSplit else entryExample.flags } :=
  ⟨by decide,
   c3_theorem.1 carrierExample [splitHeaderExample] 0 entryExample 1
     splitHeaderExample (by decide)⟩

/-- C6 counterexample: a split entry with compressedSize 5 whose
starting volume's lastFileSizeCompressed is 10 assembles successfully
with a final read count of 10, so `read == compressed_size` does NOT
hold on loop exit; this refutes the claimed exit equality. -/
theorem c6_counterexample :
    assembleSplit [splitHeaderExample] [none]
        [0, 1, 2, 3, 4, 5, 6, 7, 8, 9, 10, 11] splitEntryExample =
      some ([0, 1, 2, 3, 4, 5, 6, 7, 8, 9], 10) ∧
    splitEntryExample.compressedSize = 5 ∧
    (10 : Nat) ≠ splitEntryExample.compressedSize := by
  decide

/-- C6 (amended): a successful split assembly returns the
lastFileSizeCompressed-byte trailing segment read at the entry offset
in the starting volume, followed by the firstFileSizeCompressed-byte
head segments of the successive volumes taken while the running count
is below compressedSize; on exit the count is at least — but not
necessarily equal to — the entry's compressedSize. -/
theorem c6_theorem (hdrs : List VolumeHeader)
    (volsAfter : List (Option (List Nat))) (startStream : List Nat)
    (e : FileEntry) (out : List Nat) (r : Nat)
    (h : assembleSplit hdrs volsAfter startStream e = some (out, r)) :
    e.compressedSize ≤ r ∧
    ∃ segs, tailSegsSpec ((hdrs.zip volsAfter).drop e.volume)
        e.compressedSize
        (hdrs.getD (e.volume - 1) zeroHeader).lastFileSizeCompressed =
        some segs ∧
      out = readBytes startStream e.offset
          (hdrs.getD (e.volume - 1) zeroHeader).lastFileSizeCompressed ++
        segs.flatten ∧
      r = (hdrs.getD (e.volume - 1) zeroHeader).lastFileSizeCompressed +
        (segs.map List.length).sum := by
  simp only [assembleSplit] at h
  refine ⟨assembleTail_ge _ _ _ _ _ _ h, ?_⟩
  have heq := assembleTail_eq_spec ((hdrs.zip volsAfter).drop e.volume)
    e.compressedSize
    (hdrs.getD (e.volume - 1) zeroHeader).lastFileSizeCompressed
    (readBytes startStream e.offset
      (hdrs.getD (e.volume - 1) zeroHeader).lastFileSizeCompressed)
  rw [h] at heq
  cases hts : tailSegsSpec ((hdrs.zip volsAfter).drop e.volume)
      e.compressedSize
      (hdrs.getD (e.volume - 1) zeroHeader).lastFileSizeCompressed with
  | none =>
      rw [hts] at heq
      cases heq
  | some segs =>
      rw [hts] at heq
      dsimp only at heq
      obtain ⟨ho, hr⟩ := Prod.mk.injEq .. ▸ Option.some.inj heq
      exact ⟨segs, rfl, ho, hr⟩

/-- C6 witness: a split entry whose three compressed bytes all lie in
the starting volume assembles to exactly those bytes with a final
count equal to compressedSize. -/
theorem c6_witness :
    assembleSplit [splitHeaderExact] [none] [1, 2, 3, 4] splitEntryExact =
      some ([1, 2, 3], 3) ∧
    (splitEntryExact.compressedSize ≤ 3 ∧
     ∃ segs, tailSegsSpec
        (([splitHeaderExact].zip [none]).drop splitEntryExact.volume)
        splitEntryExact.compressedSize
        ([splitHeaderExact].getD (splitEntryExact.volume - 1)
          zeroHeader).lastFileSizeCompressed = some segs ∧
      [1, 2, 3] = readBytes [1, 2, 3, 4] splitEntryExact.offset
          ([splitHeaderExact].getD (splitEntryExact.volume - 1)
            zeroHeader).lastFileSizeCompressed ++ segs.flatten ∧
      3 = ([splitHeaderExact].getD (splitEntryExact.volume - 1)
            zeroHeader).lastFileSizeCompressed +
          (segs.map List.length).sum) :=
  ⟨by decide,
   c6_theorem [splitHeaderExact] [none] [1, 2, 3, 4] splitEntryExact
     [1, 2, 3] 3 (by decide)⟩

/-- C7: for non-null buffers with non-zero lengths, the source decoder
coincides with the spec's description: a source whose last four
big-endian bytes equal 0x0000FFFF is inflated whole as one headerless
zlib stream, and otherwise the (u16 LE chunk size, chunk) loop runs
until the output is filled or the input exhausted, any inflater
failure failing the whole call. -/
theorem c7_theorem (inflater : Inflater) (dstLen : Nat) (src : List Nat)
    (hd : dstLen ≠ 0) (hs : src ≠ []) :
    inflateZlibInstallShield inflater false dstLen false src =
      framedInflaterSpec inflater dstLen src := by
  unfold inflateZlibInstallShield framedInflaterSpec
  have hlen : src.length ≠ 0 := by
    intro h0
    exact hs (List.length_eq_zero.mp h0)
  rw [if_neg (by
    intro hcon
    rcases hcon with h | h | h | h
    · cases h
    · exact hd h
    · cases h
    · exact hlen h)]
  by_cases hsent : 4 ≤ src.length ∧ readBE32 src (src.length - 4) = 0xFFFF
  · rw [if_pos hsent, if_pos hsent]
  · rw [if_neg hsent, if_neg hsent]
    have h2 := inflateChunks_eq_spec inflater src (src.length + 1) dstLen 0
    rw [List.drop_zero] at h2
    exact h2

/-- C7 witness: the two decoders agree on a concrete two-chunk source
with a concrete inflater. -/
theorem c7_witness :
    (2 : Nat) ≠ 0 ∧ ([3, 0, 7, 8, 9] : List Nat) ≠ [] ∧
    inflateZlibInstallShield copyInflater false 2 false [3, 0, 7, 8, 9] =
      framedInflaterSpec copyInflater 2 [3, 0, 7, 8, 9] :=
  ⟨by decide, by decide,
   c7_theorem copyInflater 2 [3, 0, 7, 8, 9] (by decide) (by decide)⟩

/-- C8 counterexample: a catalog entry with uncompressedSize 0 but the
Compressed flag and compressedSize 1 makes open_stream return absent
(the inflater guard rejects the zero-length destination), refuting the
claim for arbitrary compressed_size; the inflater here always
succeeds, so the failure is not an inflate error. -/
theorem c8_counterexample :
    catLookup readerZC.map [97] = some zeroCompressedEntry ∧
    zeroCompressedEntry.uncompressedSize = 0 ∧
    createReadStreamForMember copyInflater readerZC volsExample [97] =
      none := by
  decide

/-- C8 (amended): open_stream on a catalog entry with uncompressedSize
0 returns a present stream of length 0 — for every inflater, so the
compressed payload is never required to decode — provided the entry is
not Obfuscated and not Split, its volume opens, and either the
Compressed flag is clear or compressedSize is 0; with the Compressed
flag set and a non-zero compressedSize the call instead fails. -/
theorem c8_theorem (inflater : Inflater) (st : ReaderState)
    (vols : Nat → Option (List Nat)) (key : List Nat) (e : FileEntry)
    (stream : List Nat)
    (hl : catLookup st.map key = some e)
    (hu : e.uncompressedSize = 0)
    (hobf : e.flags &&& kObfuscated = 0)
    (hsplit : e.flags &&& kSplit = 0)
    (hv : vols e.volume = some stream)
    (hc : e.flags &&& kCompressed = 0 ∨ e.compressedSize = 0) :
    ∃ out, createReadStreamForMember inflater st vols key = some out ∧
      streamLen out = 0 := by
  unfold createReadStreamForMember
  rw [hl]
  dsimp only
  rw [if_neg (not_not_intro hobf)]
  rw [hv]
  dsimp only
  rw [if_neg (not_not_intro hsplit)]
  by_cases hcf : e.flags &&& kCompressed = 0
  · rw [if_pos hcf]
    refine ⟨.sub stream e.offset (e.offset + e.uncompressedSize), rfl, ?_⟩
    simp [streamLen, hu]
  · rw [if_neg hcf]
    have hcs : e.compressedSize = 0 := by
      rcases hc with hc | hc
      · exact absurd hc hcf
      · exact hc
    unfold finishCompressed
    rw [if_pos hcs]
    refine ⟨.mem e.uncompressedSize
      (List.replicate e.uncompressedSize 0), rfl, ?_⟩
    simp [streamLen, hu]

/-- C8 witness: an uncompressed entry of size 0 yields a present
stream of length 0. -/
theorem c8_witness :
    catLookup readerZP.map [97] = some zeroPlainEntry ∧
    zeroPlainEntry.uncompressedSize = 0 ∧
    zeroPlainEntry.flags &&& kObfuscated = 0 ∧
    zeroPlainEntry.flags &&& kSplit = 0 ∧
    volsExample zeroPlainEntry.volume = some [9, 9, 9] ∧
    (zeroPlainEntry.flags &&& kCompressed = 0 ∨
      zeroPlainEntry.compressedSize = 0) ∧
    (∃ out, createReadStreamForMember copyInflater readerZP volsExample
        [97] = some out ∧ streamLen out = 0) :=
  ⟨by decide, by decide, by decide, by decide, by decide,
   Or.inl (by decide),
   c8_theorem copyInflater readerZP volsExample [97] zeroPlainEntry
     [9, 9, 9] (by decide) (by decide) (by decide) (by decide) (by decide)
     (Or.inl (by decide))⟩
